import Mathlib

/-!
Verification development for the web-agent repository.

The Python modules `modules/reasoning.py`, `modules/action.py` and
`modules/perception.py` are shallowly embedded below.  Pure functions become
Lean functions; the external collaborators (the persistent store, the HTTP
transport, the LLM capability, the wall clock and the filesystem) become
explicit parameters, so every embedded operation is a total computable
function of its inputs.  Python `float` arithmetic on scores and timestamps
is modelled with rationals, Python `int` with `Nat`/`Int`, and string-keyed
statistics dictionaries with fixed key sets become structures whose fields
are named after the keys.
-/

/-! ### String helpers (Python `in`, `str.lower`, `str.strip`) -/

/-- Character-list prefix test. -/
def isPre : List Char → List Char → Bool
  | [], _ => true
  | _ :: _, [] => false
  | a :: as, b :: bs => a == b && isPre as bs

/-- Does `needle` occur as a contiguous run inside the character list? -/
def containsAux (needle : List Char) : List Char → Bool
  | [] => isPre needle []
  | c :: rest => isPre needle (c :: rest) || containsAux needle rest

/-- Python's substring test `needle in hay`. -/
def strContains (hay needle : String) : Bool :=
  containsAux needle.data hay.data

/-- Python `str.lower` (ASCII; the repository only lowercases ASCII data). -/
def strLower (s : String) : String :=
  String.mk (s.data.map Char.toLower)

/-- Replace every occurrence of character `c` by an underscore
(`filename.replace(char, '_')`). -/
def replaceChar (s : String) (c : Char) : String :=
  String.mk (s.data.map fun ch => if ch == c then '_' else ch)

/-- Python `str.strip(' .')`: drop the given characters from both ends. -/
def stripChars (s : String) (cs : List Char) : String :=
  String.mk (((s.data.dropWhile (fun c => cs.contains c)).reverse.dropWhile
    (fun c => cs.contains c)).reverse)

/-- Python `str.strip()` with no argument: drop whitespace from both ends. -/
def stripWS (s : String) : String :=
  String.mk (((s.data.dropWhile Char.isWhitespace).reverse.dropWhile
    Char.isWhitespace).reverse)

/-! ### Percent decoding (`urllib.parse.unquote`, ASCII fragment) -/

/-- Hexadecimal digit value. -/
def hexVal (c : Char) : Option Nat :=
  if '0' ≤ c ∧ c ≤ '9' then some (c.toNat - 48)
  else if 'a' ≤ c ∧ c ≤ 'f' then some (c.toNat - 87)
  else if 'A' ≤ c ∧ c ≤ 'F' then some (c.toNat - 55)
  else none

/-- Decode `%XX` escapes; an escape with non-hex digits is passed through,
as `unquote` does.  (Multi-byte UTF-8 escapes, which the repository never
relies on, are decoded bytewise here.) -/
def unquoteList : List Char → List Char
  | [] => []
  | '%' :: a :: b :: rest =>
    match hexVal a, hexVal b with
    | some x, some y => Char.ofNat (16 * x + y) :: unquoteList rest
    | _, _ => '%' :: unquoteList (a :: b :: rest)
  | c :: rest => c :: unquoteList rest

/-- Python `urllib.parse.unquote`. -/
def unquote (s : String) : String :=
  String.mk (unquoteList s.data)

/-! ### URL splitting (`urllib.parse.urlparse`: scheme, netloc, path) -/

/-- Characters allowed in a URL scheme after the leading letter. -/
def isSchemeChar (c : Char) : Bool :=
  c.isAlpha || c.isDigit || c == '+' || c == '-' || c == '.'

/-- Split off the scheme as `urlsplit` does: the part before the first `:`
qualifies as a scheme when it is nonempty, starts with a letter and consists
of scheme characters; it is returned lowercased. -/
def splitScheme (url : String) : String × String :=
  let cs := url.data
  match cs.findIdx? (· == ':') with
  | some i =>
    if i != 0 && (cs.take i).all isSchemeChar &&
        (match cs.head? with | some c => c.isAlpha | none => false) then
      (String.mk ((cs.take i).map Char.toLower), String.mk (cs.drop (i + 1)))
    else ("", url)
  | none => ("", url)

/-- The netloc and path of the remainder after the scheme was removed:
a leading `//` introduces the netloc (up to `/`, `?` or `#`), and the path
runs up to `?` or `#`. -/
def netlocAndPath (rest : String) : String × String :=
  match rest.data with
  | '/' :: '/' :: cs =>
    let netloc := cs.takeWhile fun c => c != '/' && c != '?' && c != '#'
    let remaining := cs.drop netloc.length
    (String.mk netloc, String.mk (remaining.takeWhile fun c => c != '?' && c != '#'))
  | cs => ("", String.mk (cs.takeWhile fun c => c != '?' && c != '#'))

def urlScheme (url : String) : String := (splitScheme url).1

def urlNetloc (url : String) : String := (netlocAndPath (splitScheme url).2).1

def urlPath (url : String) : String := (netlocAndPath (splitScheme url).2).2

/-- Split a character list at a separator character (the list-level
counterpart of `str.split(sep)`). -/
def splitOnCharAux (c : Char) : List Char → List (List Char)
  | [] => [[]]
  | ch :: rest =>
    match splitOnCharAux c rest with
    | [] => if ch == c then [[], []] else [[ch]]
    | g :: gs => if ch == c then [] :: g :: gs else (ch :: g) :: gs

/-- `pathlib.Path(p).name`: the final path component (empty components and
`.` components are normalized away by `Path`). -/
def pathBasename (p : String) : String :=
  match ((splitOnCharAux '/' p.data).map String.mk).filter
      (fun s => s != "" && s != ".") with
  | [] => ""
  | q :: qs => (q :: qs).getLast (by simp)

/-- `os.path.splitext` for names without directory separators: split at the
last dot provided some earlier character of the name is not a dot. -/
def splitext (s : String) : String × String :=
  let cs := s.data
  match cs.reverse.findIdx? (· == '.') with
  | none => (s, "")
  | some k =>
    let i := cs.length - 1 - k
    if (cs.take i).any (fun c => c != '.') then
      (String.mk (cs.take i), String.mk (cs.drop i))
    else (s, "")

/-! ### Configuration models (`modules/models.py`)

Only the fields consumed by the embedded components are carried
(selectors, pagination and authentication are configuration for the
extractor, which no claim touches).  `filters.include`/`filters.exclude`
are renamed `include_terms`/`exclude_terms` because `include` is a Lean
keyword. -/

structure FiltersConfig where
  include_terms : List String
  exclude_terms : List String
deriving DecidableEq

structure RateLimitConfig where
  requests_per_minute : Nat
  delay_between_requests : Nat
deriving DecidableEq

structure LLMSiteConfig where
  use_llm : Bool
  relevance_threshold : ℚ
  custom_instructions : Option String
deriving DecidableEq

structure SiteConfig where
  name : String
  url : String
  enabled : Bool
  file_types : List String
  filters : FiltersConfig
  rate_limit : RateLimitConfig
  llm : LLMSiteConfig
deriving DecidableEq

/-- The `validate_file_types` pydantic validator of `SiteConfig`:
every extension is given a leading dot. -/
def validate_file_types (v : List String) : List String :=
  v.map fun ext => if ext.startsWith "." then ext else "." ++ ext

/-- The fields of `ScrapingConfig` that the embedded downloader reads. -/
structure ScrapingConfig where
  timeout_seconds : Nat
  max_retries : Nat
  retry_delay_seconds : Nat
  max_file_size_mb : Nat
  concurrent_downloads : Nat
deriving DecidableEq

/-! ### `ScrapedLink` (`modules/perception.py`) -/

structure ScrapedLink where
  url : String
  title : String
  text : String
  file_type : String
  date : String
  size : String
  filename : String
deriving DecidableEq

/-- The `ScrapedLink.__init__` constructor: strips the metadata strings,
lowercases the file type, and derives `filename` as
`Path(urlparse(url).path).name or "unknown"`. -/
def ScrapedLink.make (url title text file_type date size : String) : ScrapedLink :=
  { url := url
    title := stripWS title
    text := stripWS text
    file_type := strLower file_type
    date := stripWS date
    size := stripWS size
    filename :=
      let n := pathBasename (urlPath url)
      if n = "" then "unknown" else n }

/-! ### Rule-based filtering (`modules/reasoning.py`, class `RuleBasedFilter`) -/

/-- The `stats["reasons"]` dictionary built by `RuleBasedFilter.filter_links`. -/
structure RuleStats where
  include_filter : Nat
  exclude_filter : Nat
  file_type_filter : Nat
  url_pattern_filter : Nat
deriving DecidableEq

def RuleStats.init : RuleStats :=
  { include_filter := 0, exclude_filter := 0, file_type_filter := 0,
    url_pattern_filter := 0 }

/-- `RuleBasedFilter._check_file_type`. -/
def check_file_type (link : ScrapedLink) (allowed_types : List String) : Bool :=
  if allowed_types.isEmpty then true
  else (allowed_types.map strLower).contains (strLower link.file_type)

/-- `RuleBasedFilter._check_include_filters`. -/
def check_include_filters (link : ScrapedLink) (include_terms : List String) : Bool :=
  if include_terms.isEmpty then true
  else
    let text_to_check := strLower
      (link.title ++ " " ++ link.text ++ " " ++ link.filename ++ " " ++ link.url)
    include_terms.any fun term => strContains text_to_check (strLower term)

/-- `RuleBasedFilter._check_exclude_filters` (true means the link is excluded). -/
def check_exclude_filters (link : ScrapedLink) (exclude_terms : List String) : Bool :=
  if exclude_terms.isEmpty then false
  else
    let text_to_check := strLower
      (link.title ++ " " ++ link.text ++ " " ++ link.filename ++ " " ++ link.url)
    exclude_terms.any fun term => strContains text_to_check (strLower term)

/-- Schemes rejected by `RuleBasedFilter._check_url_validity` after
percent-decoding. -/
def suspiciousPatterns : List String :=
  ["javascript:", "data:", "mailto:", "ftp:", "file:", "tel:"]

/-- `RuleBasedFilter._check_url_validity`. -/
def check_url_validity (link : ScrapedLink) : Bool :=
  let scheme := urlScheme link.url
  let netloc := urlNetloc link.url
  if scheme = "" || netloc = "" then false
  else if !(scheme = "http" || scheme = "https") then false
  else
    let decoded_url := strLower (unquote link.url)
    !(suspiciousPatterns.any fun pattern => strContains decoded_url pattern)

/-- The loop body of `RuleBasedFilter.filter_links`: each rejected link
increments the matching reason counter, survivors are appended in order. -/
def ruleFilterGo (site_config : SiteConfig) :
    List ScrapedLink → RuleStats → List ScrapedLink × RuleStats
  | [], stats => ([], stats)
  | link :: links, stats =>
    if !check_file_type link site_config.file_types then
      ruleFilterGo site_config links
        { stats with file_type_filter := stats.file_type_filter + 1 }
    else if !site_config.filters.include_terms.isEmpty &&
        !check_include_filters link site_config.filters.include_terms then
      ruleFilterGo site_config links
        { stats with include_filter := stats.include_filter + 1 }
    else if !site_config.filters.exclude_terms.isEmpty &&
        check_exclude_filters link site_config.filters.exclude_terms then
      ruleFilterGo site_config links
        { stats with exclude_filter := stats.exclude_filter + 1 }
    else if !check_url_validity link then
      ruleFilterGo site_config links
        { stats with url_pattern_filter := stats.url_pattern_filter + 1 }
    else
      match ruleFilterGo site_config links stats with
      | (filtered, stats') => (link :: filtered, stats')

/-- `RuleBasedFilter.filter_links`. -/
def rule_filter_links (site_config : SiteConfig) (links : List ScrapedLink) :
    List ScrapedLink × RuleStats :=
  ruleFilterGo site_config links RuleStats.init

/-! ### LLM-based filtering (`modules/reasoning.py`, class `LLMBasedFilter`)

The LLM capability is external: `_call_llm_async` plus the JSON decoding at
the top of `_parse_llm_response` are modelled as one function from a batch
to `Except`, where `Except.error` covers both a transport failure and a
malformed (non-JSON) response — exactly the two events that the source
converts into the per-batch fallback.  A successfully decoded response is
the `filtered_documents` list. -/

/-- One entry of the decoded `filtered_documents` array.  The JSON field
`include` is named `includeFlag` (`include` is a Lean keyword); a missing
field defaults as in the source (`include=false`, `relevance_score=0.0`,
`reasoning=""`). -/
structure LLMDoc where
  url : String
  includeFlag : Bool
  relevance_score : ℚ
  reasoning : String
deriving DecidableEq

/-- One entry of `stats["llm_scores"]`. -/
structure LLMScore where
  url : String
  score : ℚ
  reasoning : String
deriving DecidableEq

/-- The `stats` dictionary threaded through `LLMBasedFilter.filter_links`. -/
structure LLMStats where
  llm_relevance_filter : Nat
  llm_low_confidence : Nat
  llm_processing_error : Nat
  llm_scores : List LLMScore
deriving DecidableEq

def LLMStats.init : LLMStats :=
  { llm_relevance_filter := 0, llm_low_confidence := 0,
    llm_processing_error := 0, llm_scores := [] }

/-- `url_to_link = {link.url: link for link in original_links}` followed by
`url_to_link[url]`: a Python dict comprehension keeps the last link with a
given URL. -/
def lookupUrl (original_links : List ScrapedLink) (u : String) : Option ScrapedLink :=
  original_links.reverse.find? fun l => l.url == u

/-- The document loop of `LLMBasedFilter._parse_llm_response`: a document
whose URL resolves and whose `include` is true is kept when its score meets
the threshold (recording the score) and counted as `llm_low_confidence`
otherwise; every other document is counted as `llm_relevance_filter`. -/
def parseGo (original_links : List ScrapedLink) (threshold : ℚ) :
    List LLMDoc → List ScrapedLink → LLMStats → List ScrapedLink × LLMStats
  | [], filtered_links, stats => (filtered_links, stats)
  | doc :: docs, filtered_links, stats =>
    match lookupUrl original_links doc.url, doc.includeFlag with
    | some link, true =>
      if threshold ≤ doc.relevance_score then
        parseGo original_links threshold docs (filtered_links ++ [link])
          { stats with llm_scores := stats.llm_scores ++
              [{ url := doc.url, score := doc.relevance_score,
                 reasoning := doc.reasoning }] }
      else
        parseGo original_links threshold docs filtered_links
          { stats with llm_low_confidence := stats.llm_low_confidence + 1 }
    | _, _ =>
      parseGo original_links threshold docs filtered_links
        { stats with llm_relevance_filter := stats.llm_relevance_filter + 1 }

/-- `LLMBasedFilter._parse_llm_response` on a successfully decoded response
(the `json.JSONDecodeError` branch lives in the capability model).  The
threshold is `site_config.llm.relevance_threshold`, defaulting to `0.6`
when no site config is passed, as in the source. -/
def parse_llm_response (docs : List LLMDoc) (original_links : List ScrapedLink)
    (stats : LLMStats) (site_config : Option SiteConfig) :
    List ScrapedLink × LLMStats :=
  let threshold := match site_config with
    | some sc => sc.llm.relevance_threshold
    | none => mkRat 6 10
  parseGo original_links threshold docs [] stats

/-- `LLMBasedFilter._process_batch`: on a capability error the batch passes
through unchanged and `llm_processing_error` grows by the batch size. -/
def process_batch (cap : List ScrapedLink → Except String (List LLMDoc))
    (site_config : SiteConfig) (links : List ScrapedLink) (stats : LLMStats) :
    List ScrapedLink × LLMStats :=
  match cap links with
  | Except.error _ =>
    (links, { stats with
      llm_processing_error := stats.llm_processing_error + links.length })
  | Except.ok docs => parse_llm_response docs links stats (some site_config)

/-- `links[i:i+20]` slicing of `LLMBasedFilter.filter_links`
(`batch_size = 20`), with an explicit fuel so that the recursion is
structural; `chunksOf20` supplies fuel `l.length`, which always suffices. -/
def chunksAux : Nat → List ScrapedLink → List (List ScrapedLink)
  | 0, _ => []
  | _, [] => []
  | fuel + 1, x :: xs => (x :: xs.take 19) :: chunksAux fuel (xs.drop 19)

def chunksOf20 (l : List ScrapedLink) : List (List ScrapedLink) :=
  chunksAux l.length l

/-- The batch loop of `LLMBasedFilter.filter_links`: batches are processed
in order, survivors are concatenated, the stats dict is threaded through. -/
def llmFilterGo (cap : List ScrapedLink → Except String (List LLMDoc))
    (site_config : SiteConfig) :
    List (List ScrapedLink) → List ScrapedLink → LLMStats →
    List ScrapedLink × LLMStats
  | [], filtered_links, stats => (filtered_links, stats)
  | batch :: batches, filtered_links, stats =>
    match process_batch cap site_config batch stats with
    | (batch_filtered, stats') =>
      llmFilterGo cap site_config batches (filtered_links ++ batch_filtered) stats'

/-- `LLMBasedFilter.filter_links`.  An empty input returns immediately (the
source returns `{"reasons": {"llm_filter": 0}}` there, a zero stats dict).
The outer `except` of the source is unreachable here because every batch
error is already absorbed by `_process_batch`. -/
def llm_filter_links (cap : List ScrapedLink → Except String (List LLMDoc))
    (site_config : SiteConfig) (links : List ScrapedLink) :
    List ScrapedLink × LLMStats :=
  if links.isEmpty then (links, LLMStats.init)
  else llmFilterGo cap site_config (chunksOf20 links) [] LLMStats.init

/-! ### The filter pipeline (`modules/reasoning.py`, class `ReasoningEngine`) -/

/-- `ReasoningEngine._remove_duplicates` with its `seen_urls` set made
explicit. -/
def removeDupGo (seen_urls : List String) : List ScrapedLink → List ScrapedLink
  | [] => []
  | link :: links =>
    if seen_urls.contains link.url then removeDupGo seen_urls links
    else link :: removeDupGo (link.url :: seen_urls) links

def remove_duplicates (links : List ScrapedLink) : List ScrapedLink :=
  removeDupGo [] links

/-- `ReasoningEngine._filter_already_downloaded`; the persistent store's
`is_already_downloaded` is the `downloaded` predicate. -/
def filter_already_downloaded (downloaded : String → Bool)
    (links : List ScrapedLink) : List ScrapedLink :=
  links.filter fun link => !downloaded link.url

/-- The `stats` dictionary of `ReasoningEngine.filter_links`.  Counters are
integers exactly as in Python (the difference recorded for the LLM stage is
not clamped); the two reason dictionaries merged by `dict.update` have
disjoint key sets and are kept apart. -/
structure EngineStats where
  total_links : Int
  filtered_links : Int
  duplicate_links : Int
  already_downloaded : Int
  rule_filtered : Int
  llm_filtered : Int
  rule_reasons : RuleStats
  llm_reasons : LLMStats
deriving DecidableEq

/-- `ReasoningEngine.filter_links`.  `llmEnabled` is `llm_config.enabled`,
`hasLLMFilter` is `self.llm_filter is not None`, `use_llm` the call
argument; the LLM stage runs only when all three hold, and otherwise the
rule survivors are final and `llm_filtered` stays `0`. -/
def engine_filter_links (downloaded : String → Bool)
    (cap : List ScrapedLink → Except String (List LLMDoc))
    (llmEnabled hasLLMFilter use_llm : Bool)
    (site_config : SiteConfig) (links : List ScrapedLink) :
    List ScrapedLink × EngineStats :=
  let unique_links := remove_duplicates links
  let new_links := filter_already_downloaded downloaded unique_links
  let ruleRes := rule_filter_links site_config new_links
  let useLLMStage := use_llm && llmEnabled && hasLLMFilter
  let llmRes := if useLLMStage then llm_filter_links cap site_config ruleRes.1
    else (ruleRes.1, LLMStats.init)
  (llmRes.1,
   { total_links := (links.length : Int)
     filtered_links := (llmRes.1.length : Int)
     duplicate_links := (links.length : Int) - (unique_links.length : Int)
     already_downloaded := (unique_links.length : Int) - (new_links.length : Int)
     rule_filtered := (new_links.length : Int) - (ruleRes.1.length : Int)
     llm_filtered := if useLLMStage then
         (ruleRes.1.length : Int) - (llmRes.1.length : Int)
       else 0
     rule_reasons := ruleRes.2
     llm_reasons := llmRes.2 })

/-! ### Priority scoring (`ReasoningEngine.prioritize_links`) -/

/-- Digit-run value, used for both parts of the regex group
`(\d+(?:\.\d+)?)`. -/
def digitsToNat (ds : List Char) : Nat :=
  ds.foldl (fun acc c => 10 * acc + (c.toNat - 48)) 0

/-- Python `\s`. -/
def pySpace (c : Char) : Bool :=
  c == ' ' || c == '\t' || c == '\n' || c == '\r' || c == '\x0b' || c == '\x0c'

/-- The alternation `kb|mb|gb|bytes?` tried at the current position, in
regex order, greedily (`bytes` before `byte`). -/
def unitAt (cs : List Char) : Option String :=
  if isPre ['k', 'b'] cs then some "kb"
  else if isPre ['m', 'b'] cs then some "mb"
  else if isPre ['g', 'b'] cs then some "gb"
  else if isPre ['b', 'y', 't', 'e', 's'] cs then some "bytes"
  else if isPre ['b', 'y', 't', 'e'] cs then some "byte"
  else none

/-- Parse `\d+(?:\.\d+)?` at a position known to start with a digit,
returning the parsed value (as an exact rational standing in for
Python's `float(...)`) and the rest of the input. -/
def sizeNumAt (cs : List Char) : ℚ × List Char :=
  let ds := cs.takeWhile Char.isDigit
  let r1 := cs.dropWhile Char.isDigit
  match r1 with
  | '.' :: r2 =>
    let fs := r2.takeWhile Char.isDigit
    if fs.isEmpty then ((digitsToNat ds : ℚ), r1)
    else ((digitsToNat ds : ℚ) + (digitsToNat fs : ℚ) / (10 : ℚ) ^ fs.length,
      r2.dropWhile Char.isDigit)
  | _ => ((digitsToNat ds : ℚ), r1)

/-- `re.search(r'(\d+(?:\.\d+)?)\s*(kb|mb|gb|bytes?)?', ...)`: the leftmost
match starts at the first digit; after the number and any whitespace the
optional unit group is tried. -/
def sizeSearch : List Char → Option (ℚ × Option String)
  | [] => none
  | c :: rest =>
    if c.isDigit then
      match sizeNumAt (c :: rest) with
      | (v, r) => some (v, unitAt (r.dropWhile pySpace))
    else sizeSearch rest

/-- `ReasoningEngine._calculate_size_score`. -/
def calculate_size_score (size_str : String) : ℚ :=
  if size_str = "" then 0
  else
    match sizeSearch (strLower size_str).data with
    | none => 0
    | some (size_value, unit) =>
      let size_mb : ℚ := match unit with
        | some "kb" => size_value / 1024
        | some "mb" => size_value
        | some "gb" => size_value * 1024
        | _ => size_value / (1024 * 1024)
      if 1 / 10 ≤ size_mb ∧ size_mb ≤ 50 then 2
      else if size_mb ≤ 100 then 1
      else if size_mb ≤ 500 then 1 / 2
      else -1

/-- `ReasoningEngine._calculate_relevance_score`. -/
def calculate_relevance_score (link : ScrapedLink) (site_config : SiteConfig) : ℚ :=
  let text_to_check := strLower (link.title ++ " " ++ link.text ++ " " ++ link.filename)
  let s1 := site_config.filters.include_terms.foldl
    (fun score term =>
      if strContains text_to_check (strLower term) then score + 2 else score) 0
  site_config.filters.exclude_terms.foldl
    (fun score term =>
      if strContains text_to_check (strLower term) then score - 5 else score) s1

/-- The inner `priority_score` of `ReasoningEngine.prioritize_links`.
`_calculate_date_score` reads the wall clock (`datetime.now()`), so it
enters the model as the environment function `date_score`; every theorem
below holds for each choice of it. -/
def priority_score (date_score : String → ℚ) (site_config : SiteConfig)
    (link : ScrapedLink) : ℚ :=
  let type_points : ℚ :=
    if link.file_type = ".pdf" then 10
    else if link.file_type = ".csv" ∨ link.file_type = ".xlsx" then 8
    else if link.file_type = ".json" ∨ link.file_type = ".xml" then 6
    else 1
  type_points + date_score link.date + calculate_size_score link.size +
    calculate_relevance_score link site_config

/-- Stable-descending insertion used to model Python's
`sorted(links, key=priority_score, reverse=True)`: an element moves past
exactly those elements whose key is strictly greater, so equal keys keep
their original relative order. -/
def insertDescBy {α : Type} (f : α → ℚ) (x : α) : List α → List α
  | [] => [x]
  | y :: ys => if f x < f y then y :: insertDescBy f x ys else x :: y :: ys

/-- The stable descending sort itself (Python's `sorted` is stable, and
`reverse=True` keeps equal elements in list order). -/
def sortDescBy {α : Type} (f : α → ℚ) : List α → List α
  | [] => []
  | x :: xs => insertDescBy f x (sortDescBy f xs)

/-- `ReasoningEngine.prioritize_links`. -/
def prioritize_links (date_score : String → ℚ) (site_config : SiteConfig)
    (links : List ScrapedLink) : List ScrapedLink :=
  sortDescBy (priority_score date_score site_config) links

/-! ### The downloader (`modules/action.py`, class `FileDownloader`)

The download directory is the filesystem the downloader can see; it enters
the model as an association list `fs : List (String × Nat)` of file names
with their byte sizes.  The HTTP transport enters as one `HttpResponse`
per attempt.  Calls to `memory.record_download` and the checksum (side
effects on the external store that no field of the returned
`DownloadResult` depends on) are elided. -/

structure DownloadResult where
  link : ScrapedLink
  success : Bool
  file_path : Option String
  file_size : Option Nat
  error_message : Option String
  retry_count : Nat
deriving DecidableEq

/-- One HTTP response as `_perform_download` consumes it: a status plus
reason, the optional declared `Content-Length`, the sizes of the 8KB chunks
the body stream yields, and — when the transport fails mid-stream — the
error it raises after those chunks. -/
structure HttpResponse where
  status : Nat
  reason : String
  contentLength : Option Nat
  chunks : List Nat
  streamError : Option String
deriving DecidableEq

/-- The chunk loop of `_perform_download`.  The first component is the file
the loop leaves on disk (`some` size, or `none` when the over-limit partial
file was unlinked); the second is the returned size or the raised error.
A mid-stream transport failure leaves the partial file in place, exactly as
the source does. -/
def write_chunks (max_size_bytes : Nat) (streamError : Option String) :
    List Nat → Nat → Option Nat × Except String Nat
  | [], total_size =>
    match streamError with
    | some e => (some total_size, Except.error e)
    | none => (some total_size, Except.ok total_size)
  | chunk :: chunks, total_size =>
    let total := total_size + chunk
    if max_size_bytes < total then
      (none, Except.error ("File too large during download: " ++
        toString total ++ " bytes"))
    else write_chunks max_size_bytes streamError chunks total

/-- `FileDownloader._perform_download`. -/
def perform_download (max_file_size_mb : Nat) (resp : HttpResponse) :
    Option Nat × Except String Nat :=
  if resp.status != 200 then
    (none, Except.error ("HTTP " ++ toString resp.status ++ ": " ++ resp.reason))
  else
    let max_size_bytes := max_file_size_mb * 1024 * 1024
    match resp.contentLength with
    | some file_size =>
      if max_size_bytes < file_size then
        (none, Except.error ("File too large: " ++ toString file_size ++
          " bytes (max: " ++ toString max_size_bytes ++ ")"))
      else write_chunks max_size_bytes resp.streamError resp.chunks 0
    | none => write_chunks max_size_bytes resp.streamError resp.chunks 0

/-- `FileDownloader._sanitize_filename`. -/
def sanitize_filename (filename : String) : String :=
  let invalid_chars : List Char := ['<', '>', ':', '"', '/', '\\', '|', '?', '*']
  let f1 := invalid_chars.foldl replaceChar filename
  let f2 := String.mk (f1.data.filter fun c => 32 ≤ c.toNat)
  let f3 := stripChars f2 [' ', '.']
  if f3 = "" then "unnamed_file" else f3

/-- One numbered collision candidate `f"{name_part}_{counter}{ext_part}"`
(the split is always taken of the original `final_filename`, as in the
source). -/
def numberedName (final_filename : String) (counter : Nat) : String :=
  match splitext final_filename with
  | (name_part, ext_part) => name_part ++ "_" ++ toString counter ++ ext_part

/-- The `while base_path.exists()` collision loop, with fuel
`fs.length + 1`: the loop inspects only names in `fs`, and since the
numbered candidates are pairwise distinct the fuel always suffices. -/
def resolveCollision (fs : List String) (final_filename : String) :
    Nat → String → Nat → String
  | 0, base, _ => base
  | fuel + 1, base, counter =>
    if fs.contains base then
      resolveCollision fs final_filename fuel (numberedName final_filename counter)
        (counter + 1)
    else base

/-- `FileDownloader._generate_safe_filename`.  `fs` is the set of names
already present in the download directory; `urlHash` models the Python
builtin `hash` (process-seeded, hence an environment parameter). -/
def generate_safe_filename (urlHash : String → Nat) (fs : List String)
    (link : ScrapedLink) (site_name : String) : String :=
  let filename0 := link.filename
  let filename :=
    if filename0 = "" ∨ filename0 = "unknown" then
      let path := urlPath link.url
      let f1 := if path ≠ "" then pathBasename (unquote path) else filename0
      if f1 = "" then
        let f2 :=
          if link.title ≠ "" then sanitize_filename link.title
          else "download_" ++ toString (urlHash link.url % 10000)
        if link.file_type ≠ "" then f2 ++ link.file_type else f2
      else f1
    else filename0
  let safe_filename := sanitize_filename filename
  let site_pref := sanitize_filename site_name
  let final0 := site_pref ++ "_" ++ safe_filename
  let final_filename :=
    if 200 < final0.length then
      match splitext final0 with
      | (name_part, ext_part) =>
        String.mk (name_part.data.take (200 - ext_part.length)) ++ ext_part
    else final0
  resolveCollision fs final_filename (fs.length + 1) final_filename 1

/-- The retry loop of `FileDownloader._download_single_file`, iterating over
the remaining values of `range(max_retries + 1)`.  The filesystem is
threaded so that a partial file left by a failed attempt is visible to the
next attempt; `asyncio.sleep` between attempts has no observable effect
here. -/
def downloadAttempts (cfg : ScrapingConfig) (urlHash : String → Nat)
    (net : Nat → HttpResponse) (link : ScrapedLink) (site_name : String) :
    List Nat → List (String × Nat) → DownloadResult
  | [], _ =>
    { link := link, success := false, file_path := none, file_size := none,
      error_message := some "Max retries exceeded",
      retry_count := cfg.max_retries }
  | attempt :: rest, fs =>
    let safe_filename := generate_safe_filename urlHash (fs.map Prod.fst) link site_name
    match fs.find? (fun p => p.fst == safe_filename) with
    | some p =>
      { link := link, success := true, file_path := some safe_filename,
        file_size := some p.snd, error_message := none, retry_count := attempt }
    | none =>
      match perform_download cfg.max_file_size_mb (net attempt) with
      | (_, Except.ok file_size) =>
        { link := link, success := true, file_path := some safe_filename,
          file_size := some file_size, error_message := none,
          retry_count := attempt }
      | (fileState, Except.error error_msg) =>
        if attempt == cfg.max_retries then
          { link := link, success := false, file_path := none,
            file_size := none, error_message := some error_msg,
            retry_count := attempt }
        else
          let fs' := match fileState with
            | some n => (safe_filename, n) :: fs
            | none => fs
          downloadAttempts cfg urlHash net link site_name rest fs'

/-- `FileDownloader._download_single_file`. -/
def download_single_file (cfg : ScrapingConfig) (urlHash : String → Nat)
    (net : Nat → HttpResponse) (link : ScrapedLink) (site_name : String)
    (fs : List (String × Nat)) : DownloadResult :=
  downloadAttempts cfg urlHash net link site_name
    (List.range (cfg.max_retries + 1)) fs

/-! ### The per-site rate limiter (`modules/perception.py`,
`WebScraper._rate_limit`)

Timestamps are rationals (seconds).  The state is the slice of
`self._request_counts` / `self._last_request_time` for one site.  The model
returns the total time the call suspends; being cooperative, the recorded
timestamp is the entry time plus that suspension. -/

structure RateState where
  window : List ℚ
  last : Option ℚ
deriving DecidableEq

/-- Step 2's suspension (`if len(...) >= requests_per_minute: sleep_time =
60 - (current_time - counts[0]); if sleep_time > 0: sleep`); the source
indexes `counts[0]`, so an empty window with a zero limit would raise —
that unreachable branch sleeps 0 here. -/
def rpmSleep (site_config : SiteConfig) (window : List ℚ) (t : ℚ) : ℚ :=
  if site_config.rate_limit.requests_per_minute ≤ window.length then
    match window.head? with
    | some oldest => if 0 < 60 - (t - oldest) then 60 - (t - oldest) else 0
    | none => 0
  else 0

/-- Step 3's suspension (`if time_since_last < min_delay: sleep the
remainder`), computed from the entry time `t`. -/
def delaySleep (site_config : SiteConfig) (last : Option ℚ) (t : ℚ) : ℚ :=
  match last with
  | some last_t =>
    if t - last_t < (site_config.rate_limit.delay_between_requests : ℚ) then
      (site_config.rate_limit.delay_between_requests : ℚ) - (t - last_t)
    else 0
  | none => 0

/-- `WebScraper._rate_limit` for one site, entered at time `t`.  Step 1
drops window entries older than 60 s; step 2 suspends while the pruned
window has reached `requests_per_minute` entries; step 3 suspends the
remainder of `delay_between_requests`, measured from the entry time exactly
as the source's stale `current_time` is. -/
def rate_limit (site_config : SiteConfig) (st : RateState) (t : ℚ) :
    ℚ × RateState :=
  let window := st.window.filter fun req_time => decide (t - 60 < req_time)
  let sleep1 := rpmSleep site_config window t
  let sleep2 := delaySleep site_config st.last t
  let recorded := t + sleep1 + sleep2
  (sleep1 + sleep2, { window := window ++ [recorded], last := some recorded })

/-! ### Helper lemmas -/

/-- Dedup keeps survivors in input order: the output is a sublist. -/
theorem removeDupGo_sublist (seen : List String) :
    ∀ links : List ScrapedLink, (removeDupGo seen links).Sublist links := by
  intro links
  induction links generalizing seen with
  | nil => simp [removeDupGo]
  | cons l ls ih =>
    simp only [removeDupGo]
    split
    · exact (ih seen).cons l
    · exact (ih (l.url :: seen)).cons₂ l

theorem remove_duplicates_sublist (links : List ScrapedLink) :
    (remove_duplicates links).Sublist links :=
  removeDupGo_sublist [] links

/-- The rule filter keeps survivors in input order. -/
theorem ruleFilterGo_fst_sublist (site_config : SiteConfig) :
    ∀ (links : List ScrapedLink) (stats : RuleStats),
      (ruleFilterGo site_config links stats).1.Sublist links := by
  intro links
  induction links with
  | nil => intro stats; simp [ruleFilterGo]
  | cons l ls ih =>
    intro stats
    simp only [ruleFilterGo]
    split
    · exact (ih _).cons l
    · split
      · exact (ih _).cons l
      · split
        · exact (ih _).cons l
        · split
          · exact (ih _).cons l
          · have h := ih stats
            cases hg : ruleFilterGo site_config ls stats with
            | mk filtered stats' =>
              rw [hg] at h
              simpa using h.cons₂ l

theorem rule_filter_links_sublist (site_config : SiteConfig)
    (links : List ScrapedLink) :
    (rule_filter_links site_config links).1.Sublist links :=
  ruleFilterGo_fst_sublist site_config links RuleStats.init

/-- The batch slicing flattens back to the input list. -/
theorem chunksAux_flatten :
    ∀ (fuel : Nat) (l : List ScrapedLink), l.length ≤ fuel →
      (chunksAux fuel l).flatten = l := by
  intro fuel
  induction fuel with
  | zero =>
    intro l hl
    have : l = [] := List.eq_nil_of_length_eq_zero (Nat.le_zero.mp hl)
    subst this; rfl
  | succ n ih =>
    intro l hl
    cases l with
    | nil => rfl
    | cons x xs =>
      simp only [chunksAux, List.flatten_cons]
      have hlen : (xs.drop 19).length ≤ n := by
        have := List.length_drop 19 xs
        simp only [List.length_cons] at hl
        omega
      rw [ih _ hlen]
      simp [List.take_append_drop]

theorem chunksOf20_flatten (l : List ScrapedLink) : (chunksOf20 l).flatten = l :=
  chunksAux_flatten l.length l le_rfl

/-- When the capability errors on every batch, the batch loop passes all
batches through unchanged and counts every link as a processing error. -/
theorem llmFilterGo_err (cap : List ScrapedLink → Except String (List LLMDoc))
    (site_config : SiteConfig) (h : ∀ b, ∃ e, cap b = Except.error e) :
    ∀ (batches : List (List ScrapedLink)) (acc : List ScrapedLink)
      (s : LLMStats),
      llmFilterGo cap site_config batches acc s =
        (acc ++ batches.flatten,
         { s with llm_processing_error :=
             s.llm_processing_error + batches.flatten.length }) := by
  intro batches
  induction batches with
  | nil => intro acc s; simp [llmFilterGo]
  | cons b bs ih =>
    intro acc s
    obtain ⟨e, he⟩ := h b
    simp only [llmFilterGo, process_batch, he]
    rw [ih]
    simp [Nat.add_assoc]

/-- `LLMBasedFilter.filter_links` under a capability that always errors:
the input passes through unchanged with every link counted as a processing
error. -/
theorem llm_filter_links_err (cap : List ScrapedLink → Except String (List LLMDoc))
    (site_config : SiteConfig) (links : List ScrapedLink)
    (h : ∀ b, ∃ e, cap b = Except.error e) :
    llm_filter_links cap site_config links =
      (links, { LLMStats.init with llm_processing_error := links.length }) := by
  unfold llm_filter_links
  split
  · rename_i hni
    have : links = [] := List.isEmpty_iff.mp hni
    subst this
    rfl
  · rw [llmFilterGo_err cap site_config h, chunksOf20_flatten]
    simp [LLMStats.init]

/-- Declarative reading of one document: the link it keeps, if any. -/
def llmKeep (original_links : List ScrapedLink) (threshold : ℚ) (doc : LLMDoc) :
    Option ScrapedLink :=
  match lookupUrl original_links doc.url, doc.includeFlag with
  | some link, true =>
    if threshold ≤ doc.relevance_score then some link else none
  | _, _ => none

/-- Links kept by a parsed response, in response order. -/
def keptOf (original_links : List ScrapedLink) (threshold : ℚ)
    (docs : List LLMDoc) : List ScrapedLink :=
  docs.filterMap (llmKeep original_links threshold)

/-- Documents counted under `llm_low_confidence`: listed with a known URL
and `include=true` but scored below the threshold. -/
def lowCount (original_links : List ScrapedLink) (threshold : ℚ)
    (docs : List LLMDoc) : Nat :=
  (docs.filter fun doc =>
    (lookupUrl original_links doc.url).isSome && doc.includeFlag &&
      decide (doc.relevance_score < threshold)).length

/-- Documents counted under `llm_relevance_filter`: listed with an unknown
URL or `include=false`. -/
def relCount (original_links : List ScrapedLink) (docs : List LLMDoc) : Nat :=
  (docs.filter fun doc =>
    !((lookupUrl original_links doc.url).isSome && doc.includeFlag)).length

/-- Score-trace entries recorded for the kept documents. -/
def scoresOf (original_links : List ScrapedLink) (threshold : ℚ)
    (docs : List LLMDoc) : List LLMScore :=
  docs.filterMap fun doc =>
    match lookupUrl original_links doc.url, doc.includeFlag with
    | some _, true =>
      if threshold ≤ doc.relevance_score then
        some { url := doc.url, score := doc.relevance_score,
               reasoning := doc.reasoning }
      else none
    | _, _ => none

/-- Closed form of the document loop of `_parse_llm_response`. -/
theorem parseGo_eq (original_links : List ScrapedLink) (threshold : ℚ) :
    ∀ (docs : List LLMDoc) (acc : List ScrapedLink) (s : LLMStats),
      parseGo original_links threshold docs acc s =
        (acc ++ keptOf original_links threshold docs,
         { llm_relevance_filter :=
             s.llm_relevance_filter + relCount original_links docs,
           llm_low_confidence :=
             s.llm_low_confidence + lowCount original_links threshold docs,
           llm_processing_error := s.llm_processing_error,
           llm_scores :=
             s.llm_scores ++ scoresOf original_links threshold docs }) := by
  intro docs
  induction docs with
  | nil =>
    intro acc s
    simp [parseGo, keptOf, relCount, lowCount, scoresOf]
  | cons d ds ih =>
    intro acc s
    cases hl : lookupUrl original_links d.url with
    | none =>
      simp only [parseGo, hl]
      rw [ih]
      simp [keptOf, relCount, lowCount, scoresOf, llmKeep, List.filterMap_cons,
        List.filter_cons, hl, Nat.add_assoc, Nat.add_comm 1]
    | some link =>
      cases hi : d.includeFlag with
      | false =>
        simp only [parseGo, hl, hi]
        rw [ih]
        simp [keptOf, relCount, lowCount, scoresOf, llmKeep, List.filterMap_cons,
          List.filter_cons, hl, hi, Nat.add_assoc, Nat.add_comm 1]
      | true =>
        by_cases hs : threshold ≤ d.relevance_score
        · simp only [parseGo, hl, hi, if_pos hs]
          rw [ih]
          simp [keptOf, relCount, lowCount, scoresOf, llmKeep, List.filterMap_cons,
            List.filter_cons, hl, hi, if_pos hs, not_lt.mpr hs]
        · simp only [parseGo, hl, hi, if_neg hs]
          rw [ih]
          simp [keptOf, relCount, lowCount, scoresOf, llmKeep, List.filterMap_cons,
            List.filter_cons, hl, hi, if_neg hs, not_le.mp hs, Nat.add_assoc,
            Nat.add_comm 1]

/-- A successful dict lookup returns a listed link with the looked-up URL. -/
theorem lookupUrl_eq_some {original_links : List ScrapedLink} {u : String}
    {l : ScrapedLink} (h : lookupUrl original_links u = some l) :
    l ∈ original_links ∧ l.url = u := by
  refine ⟨List.mem_reverse.mp (List.mem_of_find?_eq_some h), ?_⟩
  have := List.find?_some h
  simpa using this

/-- With pairwise-distinct URLs, looking up a listed link's URL finds that
link. -/
theorem lookupUrl_self {original_links : List ScrapedLink} {l : ScrapedLink}
    (hnd : (original_links.map fun x => x.url).Nodup)
    (hl : l ∈ original_links) :
    lookupUrl original_links l.url = some l := by
  cases h : lookupUrl original_links l.url with
  | none =>
    exfalso
    have := List.find?_eq_none.mp h l (List.mem_reverse.mpr hl)
    simp at this
  | some l' =>
    obtain ⟨hmem, hurl⟩ := lookupUrl_eq_some h
    have := List.inj_on_of_nodup_map hnd hmem hl hurl
    rw [this]

/-- Insertion produces a permutation of consing. -/
theorem insertDescBy_perm {α : Type} (f : α → ℚ) (x : α) :
    ∀ l : List α, (insertDescBy f x l).Perm (x :: l) := by
  intro l
  induction l with
  | nil => simp [insertDescBy]
  | cons y ys ih =>
    simp only [insertDescBy]
    split
    · exact ((ih.cons y).trans (List.Perm.swap x y ys))
    · exact List.Perm.refl _

theorem sortDescBy_perm {α : Type} (f : α → ℚ) :
    ∀ l : List α, (sortDescBy f l).Perm l := by
  intro l
  induction l with
  | nil => simp [sortDescBy]
  | cons x xs ih =>
    exact (insertDescBy_perm f x (sortDescBy f xs)).trans (ih.cons x)

theorem mem_insertDescBy {α : Type} {f : α → ℚ} {x y : α} {l : List α}
    (h : y ∈ insertDescBy f x l) : y = x ∨ y ∈ l := by
  have := (insertDescBy_perm f x l).mem_iff.mp h
  simpa using this

/-- Insertion preserves the descending-pairwise invariant. -/
theorem pairwise_insertDescBy {α : Type} (f : α → ℚ) (x : α) :
    ∀ l : List α, l.Pairwise (fun a b => f b ≤ f a) →
      (insertDescBy f x l).Pairwise (fun a b => f b ≤ f a) := by
  intro l
  induction l with
  | nil => intro _; simp [insertDescBy]
  | cons y ys ih =>
    intro hp
    rw [List.pairwise_cons] at hp
    obtain ⟨hy, hys⟩ := hp
    simp only [insertDescBy]
    split
    · rename_i hlt
      rw [List.pairwise_cons]
      refine ⟨?_, ih hys⟩
      intro z hz
      rcases mem_insertDescBy hz with rfl | hz'
      · exact le_of_lt hlt
      · exact hy z hz'
    · rename_i hnlt
      rw [List.pairwise_cons]
      refine ⟨?_, by rw [List.pairwise_cons]; exact ⟨hy, hys⟩⟩
      intro z hz
      rcases List.mem_cons.mp hz with rfl | hz'
      · exact not_lt.mp hnlt
      · exact le_trans (hy z hz') (not_lt.mp hnlt)

theorem sortDescBy_pairwise {α : Type} (f : α → ℚ) :
    ∀ l : List α, (sortDescBy f l).Pairwise (fun a b => f b ≤ f a) := by
  intro l
  induction l with
  | nil => simp [sortDescBy]
  | cons x xs ih => exact pairwise_insertDescBy f x (sortDescBy f xs) ih

/-- Stability of insertion, phrased through score-class filters. -/
theorem filter_insertDescBy {α : Type} (f : α → ℚ) (x : α) (q : ℚ) :
    ∀ l : List α,
      (insertDescBy f x l).filter (fun a => decide (f a = q)) =
        if f x = q then x :: l.filter (fun a => decide (f a = q))
        else l.filter (fun a => decide (f a = q)) := by
  intro l
  induction l with
  | nil =>
    simp only [insertDescBy, List.filter_cons, List.filter_nil]
    split <;> simp_all
  | cons y ys ih =>
    simp only [insertDescBy]
    split
    · rename_i hlt
      by_cases hxq : f x = q
      · have hyq : f y ≠ q := fun h => absurd (hxq.trans h.symm) (ne_of_lt hlt)
        simp [List.filter_cons, ih, hxq, hyq]
      · simp [List.filter_cons, ih, hxq]
    · by_cases hxq : f x = q
      · simp [List.filter_cons, hxq]
      · simp [List.filter_cons, hxq]

/-- Stability of the sort: every score class keeps its input order. -/
theorem sortDescBy_filter {α : Type} (f : α → ℚ) (q : ℚ) :
    ∀ l : List α,
      (sortDescBy f l).filter (fun a => decide (f a = q)) =
        l.filter (fun a => decide (f a = q)) := by
  intro l
  induction l with
  | nil => simp [sortDescBy]
  | cons x xs ih =>
    simp only [sortDescBy]
    rw [filter_insertDescBy, List.filter_cons]
    split
    · rename_i h; rw [if_pos (by simpa using h), ih]
    · rename_i h; rw [if_neg (by simpa using h), ih]

/-- The chunk loop never leaves a file above the size cap on disk. -/
theorem write_chunks_le (max_size_bytes : Nat) (streamError : Option String) :
    ∀ (chunks : List Nat) (total_size : Nat), total_size ≤ max_size_bytes →
      ∀ n, (write_chunks max_size_bytes streamError chunks total_size).1 = some n →
        n ≤ max_size_bytes := by
  intro chunks
  induction chunks with
  | nil =>
    intro total h n hn
    cases streamError <;> simp [write_chunks] at hn <;> omega
  | cons c cs ih =>
    intro total h n hn
    simp only [write_chunks] at hn
    split at hn
    · simp at hn
    · rename_i hle
      exact ih (total + c) (by omega) n hn

/-- Every outcome of the retry loop spends at most `max_retries` retries,
provided every remaining attempt index is in budget. -/
theorem downloadAttempts_retry_le (cfg : ScrapingConfig) (urlHash : String → Nat)
    (net : Nat → HttpResponse) (link : ScrapedLink) (site_name : String) :
    ∀ (attempts : List Nat) (fs : List (String × Nat)),
      (∀ a ∈ attempts, a ≤ cfg.max_retries) →
      (downloadAttempts cfg urlHash net link site_name attempts fs).retry_count ≤
        cfg.max_retries := by
  intro attempts
  induction attempts with
  | nil => intro fs _; simp [downloadAttempts]
  | cons a rest ih =>
    intro fs h
    have ha : a ≤ cfg.max_retries := h a (List.mem_cons_self a rest)
    have hrest : ∀ x ∈ rest, x ≤ cfg.max_retries :=
      fun x hx => h x (List.mem_cons_of_mem a hx)
    simp only [downloadAttempts]
    cases hf : (fs.find? fun p =>
        p.fst == generate_safe_filename urlHash (fs.map Prod.fst) link site_name) with
    | some p => simpa using ha
    | none =>
      cases hp : perform_download cfg.max_file_size_mb (net a) with
      | mk fileState res =>
        cases res with
        | ok file_size => simpa using ha
        | error msg =>
          simp only []
          split
          · simpa using ha
          · split <;> exact ih _ hrest

theorem rpmSleep_nonneg (site_config : SiteConfig) (window : List ℚ) (t : ℚ) :
    0 ≤ rpmSleep site_config window t := by
  unfold rpmSleep
  split
  · cases window.head? with
    | none => simp
    | some oldest => simp only []; split <;> linarith
  · linarith

theorem delaySleep_nonneg (site_config : SiteConfig) (last : Option ℚ) (t : ℚ) :
    0 ≤ delaySleep site_config last t := by
  unfold delaySleep
  cases last with
  | none => simp
  | some last_t => simp only []; split <;> linarith

/-- When the pruned window is full, step 2 waits out the oldest entry. -/
theorem rpmSleep_ge (site_config : SiteConfig) (window : List ℚ) (t oldest : ℚ)
    (hhead : window.head? = some oldest)
    (hlen : site_config.rate_limit.requests_per_minute ≤ window.length) :
    60 - (t - oldest) ≤ rpmSleep site_config window t := by
  unfold rpmSleep
  rw [if_pos hlen, hhead]
  simp only []
  split <;> linarith

/-- Step 3 always waits out the remainder of the minimum delay. -/
theorem delaySleep_ge (site_config : SiteConfig) (last_t t : ℚ) :
    (site_config.rate_limit.delay_between_requests : ℚ) - (t - last_t) ≤
      delaySleep site_config (some last_t) t := by
  unfold delaySleep
  simp only []
  split <;> linarith

/-! ### Concrete fixtures used by the claim-level theorems -/

def siteT : SiteConfig :=
  { name := "Test Site", url := "https://example.com", enabled := true,
    file_types := [".pdf"],
    filters := { include_terms := [], exclude_terms := [] },
    rate_limit := { requests_per_minute := 30, delay_between_requests := 2 },
    llm := { use_llm := true, relevance_threshold := mkRat 6 10,
             custom_instructions := none } }

def siteRL : SiteConfig :=
  { siteT with rate_limit := { requests_per_minute := 1, delay_between_requests := 2 } }

def linkPdfA : ScrapedLink :=
  ScrapedLink.make "https://example.com/a.pdf" "Report A" "" ".pdf" "" ""

def linkCsvB : ScrapedLink :=
  ScrapedLink.make "https://example.com/b.csv" "Data B" "" ".csv" "" ""

def linkPdfC : ScrapedLink :=
  ScrapedLink.make "https://example.com/c.pdf" "Report C" "" ".pdf" "" ""

def docA : LLMDoc :=
  { url := "https://example.com/a.pdf", includeFlag := true,
    relevance_score := 1, reasoning := "relevant" }

def docC : LLMDoc :=
  { url := "https://example.com/c.pdf", includeFlag := true,
    relevance_score := 1, reasoning := "relevant" }

/-- A capability that fails on every batch (transport failure or malformed
response). -/
def capErr : List ScrapedLink → Except String (List LLMDoc) :=
  fun _ => Except.error "transport failure"

/-- A capability whose (well-formed) response lists the two URLs in the
opposite of their input order. -/
def capSwap : List ScrapedLink → Except String (List LLMDoc) :=
  fun _ => Except.ok [docC, docA]

def cfgT : ScrapingConfig :=
  { timeout_seconds := 30, max_retries := 3, retry_delay_seconds := 5,
    max_file_size_mb := 100, concurrent_downloads := 3 }

def linkReport : ScrapedLink :=
  ScrapedLink.make "https://example.com/report.pdf" "" "" ".pdf" "" ""

/-- A transport that succeeds with a 100-byte body on every attempt. -/
def netOkT : Nat → HttpResponse :=
  fun _ => { status := 200, reason := "OK", contentLength := some 100,
             chunks := [100], streamError := none }

/-- A response declaring a Content-Length above a 1 MB cap. -/
def respBig : HttpResponse :=
  { status := 200, reason := "OK", contentLength := some 2000000,
    chunks := [], streamError := none }

/-! ### Claim-level theorems -/

/-- Claim C7: for a site whose allowed file-type set is exactly `{.pdf}`,
rule-filtering three links of types `.pdf`, `.csv`, `.pdf` (each otherwise
passing every rule) returns exactly the two `.pdf` links, in order, and the
`file_type_filter` reason counter equals 1 while every other rule counter
is 0. -/
theorem C7_rule_filter_scenario :
    rule_filter_links siteT [linkPdfA, linkCsvB, linkPdfC] =
      ([linkPdfA, linkPdfC],
       { include_filter := 0, exclude_filter := 0, file_type_filter := 1,
         url_pattern_filter := 0 }) := by
  decide

/-- Claim C2: if the intelligent-filter capability errors on every call,
`LLMBasedFilter.filter_links` returns its input batch unchanged (hence a
nonempty batch never becomes empty) with `llm_processing_error` counting
every link of the batch, and the call returns normally rather than
failing. -/
theorem C2_llm_fallback_passthrough
    (cap : List ScrapedLink → Except String (List LLMDoc))
    (site_config : SiteConfig) (links : List ScrapedLink)
    (h : ∀ b, ∃ e, cap b = Except.error e) :
    (llm_filter_links cap site_config links).1 = links ∧
    (llm_filter_links cap site_config links).2.llm_processing_error =
      links.length ∧
    (links ≠ [] → (llm_filter_links cap site_config links).1 ≠ []) := by
  rw [llm_filter_links_err cap site_config links h]
  exact ⟨rfl, rfl, fun hne => hne⟩

/-- Witness for C2: a batch of 3 valid links under an always-erroring
capability yields exactly those 3 links with the error counter at 3. -/
theorem C2_witness :
    (∀ b, ∃ e, capErr b = Except.error e) ∧
    (llm_filter_links capErr siteT [linkPdfA, linkCsvB, linkPdfC]).1 =
      [linkPdfA, linkCsvB, linkPdfC] ∧
    (llm_filter_links capErr siteT
      [linkPdfA, linkCsvB, linkPdfC]).2.llm_processing_error = 3 := by
  have h : ∀ b, ∃ e, capErr b = Except.error e :=
    fun _ => ⟨"transport failure", rfl⟩
  have main := C2_llm_fallback_passthrough capErr siteT
    [linkPdfA, linkCsvB, linkPdfC] h
  exact ⟨h, main.1, main.2.1⟩

/-- Counterexample for claim C3 as stated: when the capability's response
lists the two URLs in swapped order, the intelligent-filter stage emits the
survivors in response order, which is not a subsequence of the stage's
input order. -/
theorem C3_counterexample_llm_reorders :
    ¬ (llm_filter_links capSwap siteT [linkPdfA, linkPdfC]).1.Sublist
        [linkPdfA, linkPdfC] := by
  have heval : (llm_filter_links capSwap siteT [linkPdfA, linkPdfC]).1 =
      [linkPdfC, linkPdfA] := by decide
  rw [heval]
  intro hs
  have heq := hs.eq_of_length rfl
  have : linkPdfC = linkPdfA := by injection heq
  exact absurd this (by decide)

/-- Claim C3, amended: the dedup, history-check and rule-filter stages
return survivors as subsequences of their inputs, and the intelligent stage
does so in its error-fallback path (where the batch passes through
unchanged); but on a parsed response the intelligent stage emits survivors
in response order, which need not extend the input order. -/
theorem C3_amended_stage_order :
    (∀ links : List ScrapedLink, (remove_duplicates links).Sublist links) ∧
    (∀ (downloaded : String → Bool) (links : List ScrapedLink),
      (filter_already_downloaded downloaded links).Sublist links) ∧
    (∀ (site_config : SiteConfig) (links : List ScrapedLink),
      (rule_filter_links site_config links).1.Sublist links) ∧
    (∀ (cap : List ScrapedLink → Except String (List LLMDoc))
      (site_config : SiteConfig) (links : List ScrapedLink),
      (∀ b, ∃ e, cap b = Except.error e) →
      (llm_filter_links cap site_config links).1 = links) := by
  refine ⟨remove_duplicates_sublist, fun downloaded links => ?_,
    rule_filter_links_sublist, fun cap site_config links h => ?_⟩
  · exact List.filter_sublist links
  · rw [llm_filter_links_err cap site_config links h]

/-- Witness for the amended C3, instantiating each stage at concrete
inputs (the fallback conjunct at the always-erroring capability). -/
theorem C3_witness :
    (remove_duplicates [linkPdfA, linkPdfC]).Sublist [linkPdfA, linkPdfC] ∧
    (filter_already_downloaded (fun _ => false)
      [linkPdfA, linkPdfC]).Sublist [linkPdfA, linkPdfC] ∧
    (rule_filter_links siteT [linkPdfA, linkPdfC]).1.Sublist
      [linkPdfA, linkPdfC] ∧
    (llm_filter_links capErr siteT [linkPdfA, linkPdfC]).1 =
      [linkPdfA, linkPdfC] :=
  ⟨C3_amended_stage_order.1 [linkPdfA, linkPdfC],
   C3_amended_stage_order.2.1 (fun _ => false) [linkPdfA, linkPdfC],
   C3_amended_stage_order.2.2.1 siteT [linkPdfA, linkPdfC],
   C3_amended_stage_order.2.2.2 capErr siteT [linkPdfA, linkPdfC]
     (fun _ => ⟨"transport failure", rfl⟩)⟩

/-- Characterization of `llmKeep`. -/
theorem llmKeep_eq_some {original_links : List ScrapedLink} {threshold : ℚ}
    {doc : LLMDoc} {link : ScrapedLink} :
    llmKeep original_links threshold doc = some link ↔
      lookupUrl original_links doc.url = some link ∧
        doc.includeFlag = true ∧ threshold ≤ doc.relevance_score := by
  unfold llmKeep
  cases hl : lookupUrl original_links doc.url with
  | none => cases hi : doc.includeFlag <;> simp
  | some l' =>
    cases hi : doc.includeFlag with
    | false => simp
    | true =>
      by_cases hs : threshold ≤ doc.relevance_score
      · simp [if_pos hs, hs, eq_comm]
      · simp [if_neg hs, hs]

/-- Counterexample for claim C4 as stated: a link whose URL is omitted from
the response is dropped, but no rejection reason counter is incremented —
the statistics are returned untouched. -/
theorem C4_counterexample_omitted_uncounted :
    linkPdfA ∉ (parse_llm_response [] [linkPdfA] LLMStats.init (some siteT)).1 ∧
    (parse_llm_response [] [linkPdfA] LLMStats.init (some siteT)).2 =
      LLMStats.init := by
  constructor
  · decide
  · rfl

/-- Claim C4, amended: when the response parses, a link is kept iff the
response lists its URL with `include=true` and a score at or above the
site's threshold (so an omitted URL is dropped exactly like
`include=false`); `llm_low_confidence` counts the listed, included,
below-threshold documents and `llm_relevance_filter` counts the documents
with an unknown URL or `include=false` — but links omitted from the
response increment no counter at all. -/
theorem C4_amended_keep_iff (original_links : List ScrapedLink)
    (docs : List LLMDoc) (site_config : SiteConfig) (s : LLMStats)
    (hnd : (original_links.map fun l => l.url).Nodup) :
    (∀ link, link ∈ (parse_llm_response docs original_links s
        (some site_config)).1 ↔
      link ∈ original_links ∧ ∃ d ∈ docs, d.url = link.url ∧
        d.includeFlag = true ∧
        site_config.llm.relevance_threshold ≤ d.relevance_score) ∧
    (parse_llm_response docs original_links s
        (some site_config)).2.llm_low_confidence =
      s.llm_low_confidence +
        lowCount original_links site_config.llm.relevance_threshold docs ∧
    (parse_llm_response docs original_links s
        (some site_config)).2.llm_relevance_filter =
      s.llm_relevance_filter + relCount original_links docs := by
  unfold parse_llm_response
  rw [parseGo_eq]
  refine ⟨?_, rfl, rfl⟩
  intro link
  simp only [List.nil_append, keptOf, List.mem_filterMap]
  constructor
  · rintro ⟨d, hd, hkeep⟩
    obtain ⟨hlook, hinc, hsc⟩ := llmKeep_eq_some.mp hkeep
    obtain ⟨hmem, hurl⟩ := lookupUrl_eq_some hlook
    exact ⟨hmem, d, hd, hurl.symm, hinc, hsc⟩
  · rintro ⟨hmem, d, hd, hurl, hinc, hsc⟩
    refine ⟨d, hd, llmKeep_eq_some.mpr ⟨?_, hinc, hsc⟩⟩
    rw [hurl]
    exact lookupUrl_self hnd hmem

/-- Witness for the amended C4: with two distinct-URL links and a response
listing only the second (included, scored 1 ≥ 0.6), the second link is
kept. -/
theorem C4_witness :
    ([linkPdfA, linkPdfC].map fun l => l.url).Nodup ∧
    linkPdfC ∈ (parse_llm_response [docC] [linkPdfA, linkPdfC] LLMStats.init
      (some siteT)).1 := by
  have hnd : ([linkPdfA, linkPdfC].map fun l => l.url).Nodup := by decide
  refine ⟨hnd, ?_⟩
  exact ((C4_amended_keep_iff [linkPdfA, linkPdfC] [docC] siteT LLMStats.init
    hnd).1 linkPdfC).mpr ⟨by decide, docC, by decide, by decide, rfl, by decide⟩

/-- Claim C5: every `DownloadResult` produced by
`FileDownloader._download_single_file` — the existing-file short-circuit,
the success path and the terminal-failure path alike — carries a retry
count of at most the configured `max_retries` (it is a `Nat`, so it is
also at least 0). -/
theorem C5_retry_count_le_max (cfg : ScrapingConfig) (urlHash : String → Nat)
    (net : Nat → HttpResponse) (link : ScrapedLink) (site_name : String)
    (fs : List (String × Nat)) :
    (download_single_file cfg urlHash net link site_name fs).retry_count ≤
      cfg.max_retries := by
  unfold download_single_file
  apply downloadAttempts_retry_le
  intro a ha
  exact Nat.lt_succ_iff.mp (List.mem_range.mp ha)

/-- Claim C6: `_perform_download` never leaves a file above the configured
cap on disk — whatever file remains holds at most `max_file_size_mb` MB —
and a declared Content-Length above the cap is rejected with an error
before any file is created. -/
theorem C6_size_cap :
    (∀ (max_file_size_mb : Nat) (resp : HttpResponse) (n : Nat),
      (perform_download max_file_size_mb resp).1 = some n →
      n ≤ max_file_size_mb * 1024 * 1024) ∧
    (∀ (max_file_size_mb : Nat) (resp : HttpResponse) (cl : Nat),
      resp.status = 200 → resp.contentLength = some cl →
      max_file_size_mb * 1024 * 1024 < cl →
      (perform_download max_file_size_mb resp).1 = none ∧
        ∃ e, (perform_download max_file_size_mb resp).2 = Except.error e) := by
  constructor
  · intro mb resp n h
    unfold perform_download at h
    split at h
    · simp at h
    · split at h
      · dsimp only [] at h
        split at h
        · simp at h
        · exact write_chunks_le _ _ _ 0 (Nat.zero_le _) n h
      · exact write_chunks_le _ _ _ 0 (Nat.zero_le _) n h
  · intro mb resp cl h200 hcl hbig
    unfold perform_download
    rw [h200, hcl]
    simp only [if_pos hbig]
    exact ⟨rfl, _, rfl⟩

/-- Witness for C6: a 200 response declaring 2 000 000 bytes against a 1 MB
cap is rejected with no file written. -/
theorem C6_witness :
    respBig.status = 200 ∧ respBig.contentLength = some 2000000 ∧
    1 * 1024 * 1024 < 2000000 ∧
    ((perform_download 1 respBig).1 = none ∧
      ∃ e, (perform_download 1 respBig).2 = Except.error e) :=
  ⟨rfl, rfl, by decide,
   C6_size_cap.2 1 respBig 2000000 rfl rfl (by decide)⟩

/-- Claim C8: `prioritize_links` sorts descending by the computed
`priority_score` (pairwise, every later link scores no higher than an
earlier one), it is a permutation of its input, and the sort is stable:
the links of any fixed score value appear in exactly their input order.
This holds for every date-score environment, hence for the wall-clock one
of the source. -/
theorem C8_priority_sort_stable_desc (date_score : String → ℚ)
    (site_config : SiteConfig) (links : List ScrapedLink) :
    (prioritize_links date_score site_config links).Pairwise
      (fun a b => priority_score date_score site_config b ≤
        priority_score date_score site_config a) ∧
    (∀ q : ℚ,
      (prioritize_links date_score site_config links).filter
          (fun l => decide (priority_score date_score site_config l = q)) =
        links.filter
          (fun l => decide (priority_score date_score site_config l = q))) ∧
    (prioritize_links date_score site_config links).Perm links :=
  ⟨sortDescBy_pairwise _ links, fun q => sortDescBy_filter _ q links,
   sortDescBy_perm _ links⟩

/-- Claim C9: the rate limiter first prunes the window, then waits out the
oldest entry whenever the pruned window is full, then enforces the minimum
inter-request delay (both lower bounds hold for the single returned
suspension); in particular with `requests_per_minute = 1` a second
back-to-back request is suspended at least `60 − elapsed` seconds. -/
theorem C9_rate_limit_contract :
    (∀ (site_config : SiteConfig) (st : RateState) (t oldest : ℚ),
      (st.window.filter fun r => decide (t - 60 < r)).head? = some oldest →
      site_config.rate_limit.requests_per_minute ≤
        (st.window.filter fun r => decide (t - 60 < r)).length →
      60 - (t - oldest) ≤ (rate_limit site_config st t).1) ∧
    (∀ (site_config : SiteConfig) (st : RateState) (t last_t : ℚ),
      st.last = some last_t →
      (site_config.rate_limit.delay_between_requests : ℚ) - (t - last_t) ≤
        (rate_limit site_config st t).1) ∧
    (∀ (site_config : SiteConfig) (t0 t1 : ℚ),
      site_config.rate_limit.requests_per_minute = 1 →
      t0 ≤ t1 → t1 < t0 + 60 →
      60 - (t1 - t0) ≤
        (rate_limit site_config
          (rate_limit site_config ⟨[], none⟩ t0).2 t1).1) := by
  refine ⟨?_, ?_, ?_⟩
  · intro site_config st t oldest hhead hlen
    have h1 := rpmSleep_ge site_config _ t oldest hhead hlen
    have h2 := delaySleep_nonneg site_config st.last t
    simp only [rate_limit]
    linarith
  · intro site_config st t last_t hlast
    have h1 := rpmSleep_nonneg site_config
      (st.window.filter fun r => decide (t - 60 < r)) t
    have h2 := delaySleep_ge site_config last_t t
    simp only [rate_limit]
    rw [hlast]
    linarith
  · intro site_config t0 t1 hrpm h01 h160
    have hfirst : (rate_limit site_config ⟨[], none⟩ t0).2 =
        ⟨[t0], some t0⟩ := by
      simp [rate_limit, rpmSleep, delaySleep, hrpm]
    rw [hfirst]
    have hw : (([t0] : List ℚ).filter fun r => decide (t1 - 60 < r)) = [t0] := by
      simp only [List.filter_cons, List.filter_nil]
      rw [if_pos]
      simp only [decide_eq_true_eq]
      linarith
    have h1 : 60 - (t1 - t0) ≤ rpmSleep site_config [t0] t1 := by
      unfold rpmSleep
      rw [if_pos (by simp [hrpm]), List.head?]
      simp only []
      split <;> linarith
    have h2 := delaySleep_nonneg site_config (some t0) t1
    simp only [rate_limit]
    rw [hw]
    linarith

/-- Witness for C9: with `requests_per_minute = 1`, requests at times 0 and
1 make the second call suspend at least 59 seconds (here exactly 59 from
the window plus 1 from the 2-second minimum delay). -/
theorem C9_witness :
    siteRL.rate_limit.requests_per_minute = 1 ∧ (0 : ℚ) ≤ 1 ∧
    (1 : ℚ) < 0 + 60 ∧
    60 - ((1 : ℚ) - 0) ≤
      (rate_limit siteRL (rate_limit siteRL ⟨[], none⟩ 0).2 1).1 :=
  ⟨rfl, by norm_num, by norm_num,
   C9_rate_limit_contract.2.2 siteRL 0 1 rfl (by norm_num) (by norm_num)⟩

/-- Claim C10: the statistics of one `ReasoningEngine.filter_links` run
account for every input link exactly once:
`duplicate_links + already_downloaded + rule_filtered + llm_filtered +
filtered_links = total_links`, whatever the history predicate, capability,
switches, site and input. -/
theorem C10_stats_conservation (downloaded : String → Bool)
    (cap : List ScrapedLink → Except String (List LLMDoc))
    (llmEnabled hasLLMFilter use_llm : Bool)
    (site_config : SiteConfig) (links : List ScrapedLink) :
    (engine_filter_links downloaded cap llmEnabled hasLLMFilter use_llm
        site_config links).2.duplicate_links +
      (engine_filter_links downloaded cap llmEnabled hasLLMFilter use_llm
        site_config links).2.already_downloaded +
      (engine_filter_links downloaded cap llmEnabled hasLLMFilter use_llm
        site_config links).2.rule_filtered +
      (engine_filter_links downloaded cap llmEnabled hasLLMFilter use_llm
        site_config links).2.llm_filtered +
      (engine_filter_links downloaded cap llmEnabled hasLLMFilter use_llm
        site_config links).2.filtered_links =
      (engine_filter_links downloaded cap llmEnabled hasLLMFilter use_llm
        site_config links).2.total_links := by
  simp only [engine_filter_links]
  by_cases hc : (use_llm && llmEnabled && hasLLMFilter) = true
  · simp only [hc, if_pos]
    omega
  · simp only [Bool.not_eq_true] at hc
    simp only [hc, Bool.false_eq_true, if_false]
    omega

/-- Claim C1 (evaluation at the failing input): with `site_report.pdf`
already present in the download directory for the link
`https://example.com/report.pdf` of site `site`, the collision loop of
`_generate_safe_filename` returns the fresh name `site_report_1.pdf`, so the
`file_path.exists()` short-circuit of `_download_single_file` never fires:
the file is fetched again over the network (its size is the 100 transported
bytes, not the 55 bytes on disk) into the suffixed path, instead of being
reported as an immediate success from disk. -/
theorem C1_existing_file_is_refetched :
    generate_safe_filename (fun _ => 0) ["site_report.pdf"] linkReport "site" =
      "site_report_1.pdf" ∧
    download_single_file cfgT (fun _ => 0) netOkT linkReport "site"
        [("site_report.pdf", 55)] =
      { link := linkReport, success := true,
        file_path := some "site_report_1.pdf", file_size := some 100,
        error_message := none, retry_count := 0 } := by
  constructor
  · decide
  · decide
